import Mathlib

/-!
# Verification of the Chuck Norris quote scraper / generator

Shallow embedding of the Python repository `justincranford/chucknorris`
(modules `scraper/storage.py`, `scraper/scraper.py`, `scraper/parser.py`,
`quotes/generator.py`) together with proofs of the behavioural properties
stated in its specification.

External libraries (sqlite3, the `random` module, BeautifulSoup, `re`,
`json`, the file system) are modelled by explicit Lean data: a SQLite
table is a list of rows, the seeded random generator is a deterministic
pseudo-random stream, parsed HTML is a node tree, parsed JSON is an
inductive value, and the file system is an association list from paths to
contents.  The repository's own functions are translated statement by
statement.
-/

/-! ## String helpers modelling Python's `str` methods -/

/-- Models Python `str.strip()`: remove whitespace from both ends. -/
def pyStrip (s : String) : String :=
  String.mk (((s.toList.dropWhile Char.isWhitespace).reverse.dropWhile Char.isWhitespace).reverse)

/-- Models Python `str.lower()` (ASCII case folding suffices for the
marker phrases used by the scraper). -/
def pyLower (s : String) : String :=
  String.mk (s.toList.map Char.toLower)

/-- Substring occurrence over character lists. -/
def subListAt (pat : List Char) : List Char → Bool
  | [] => pat.isEmpty
  | c :: rest => pat.isPrefixOf (c :: rest) || subListAt pat rest

/-- Models the Python expression `pat in s` on strings: substring test. -/
def pyContains (s pat : String) : Bool :=
  subListAt pat.toList s.toList

/-! ## Store (`src/scraper/storage.py`, mirrored in `src/scraper/scraper.py`)

A row of the `quotes` table as inserted by `save_quotes_to_db`: the
`INSERT` provides only the quote text and the source attribution. -/

structure SRow where
  quote : String
  source : String
  deriving DecidableEq, Repr

/-- The SQLite `quotes` table contents, in insertion order. -/
structure Store where
  rows : List SRow
  deriving DecidableEq, Repr

/-- Whether some stored row already carries this quote text (the `UNIQUE`
constraint on the `quote` column checks exactly this). -/
def quoteExists (st : Store) (q : String) : Bool :=
  st.rows.any (fun r => r.quote = q)

/-- One `cursor.execute("INSERT INTO quotes (quote, source) VALUES (?, ?)", ...)`:
`none` models the `sqlite3.IntegrityError` raised by the `UNIQUE`
constraint when a row with equal quote text is already stored. -/
def insertQuote (st : Store) (r : SRow) : Option Store :=
  if quoteExists st r.quote then none
  else some ⟨st.rows ++ [r]⟩

/-- The `for quote_data in quotes` loop of `save_quotes_to_db`: each
insert is attempted on its own, an `IntegrityError` is caught per record
and only skips that record. -/
def saveLoop (st : Store) (saved : Nat) : List SRow → Nat × Store
  | [] => (saved, st)
  | r :: rest =>
    match insertQuote st r with
    | some st' => saveLoop st' (saved + 1) rest
    | none => saveLoop st saved rest

/-- `save_quotes_to_db(quotes, db_path)` from `src/scraper/storage.py`
(lines 48-86; identical copy at `src/scraper/scraper.py` lines 644-682):
returns the number of newly inserted rows and the updated table. -/
def save_quotes_to_db (quotes : List SRow) (st : Store) : Nat × Store :=
  if quotes.isEmpty then (0, st)
  else saveLoop st 0 quotes

/-- Number of stored rows carrying a given quote text. -/
def countQuote (st : Store) (q : String) : Nat :=
  (st.rows.filter (fun r => r.quote = q)).length

/-! ## Source list mutation (`src/scraper/scraper.py`, `comment_out_source`) -/

/-- The replacement line `f"# [{reason}] {url}\n"` written for a matched
source URL. -/
def commentedLine (reason url : String) : String :=
  "# [" ++ reason ++ "] " ++ url ++ "\n"

/-- `comment_out_source(url, reason)` from `src/scraper/scraper.py`
(lines 52-72): the file content is the list of lines as returned by
`readlines()` (each keeping its trailing newline); a line whose stripped
content equals the URL is rewritten, every other line is written back
unchanged. -/
def comment_out_source (url reason : String) : List String → List String
  | [] => []
  | line :: rest =>
    (if pyStrip line = url then commentedLine reason url else line) ::
      comment_out_source url reason rest

/-! ## Export sink model (`src/quotes/generator.py`) -/

/-- A quote record as returned by `get_quote_by_id` and consumed by the
export functions. -/
structure QRow where
  id : Int
  quote : String
  source : String
  deriving DecidableEq, Repr

/-- File system plus console: the observable write targets of
`export_quotes`. -/
structure Sink where
  files : List (String × String)
  console : String
  deriving DecidableEq, Repr

/-- `open(path, "w")` followed by writes of `content`: the path is bound
to exactly `content` (created or truncated then written). -/
def setFile (files : List (String × String)) (p c : String) : List (String × String) :=
  match files with
  | [] => [(p, c)]
  | (q, d) :: rest => if q = p then (p, c) :: rest else (q, d) :: setFile rest p c

/-- `export_quotes_text`: one quote text per line. -/
def renderText (quotes : List QRow) : String :=
  String.join (quotes.map (fun q => q.quote ++ "\n"))

/-- Models the string escaping of `json.dump(..., ensure_ascii=False)`. -/
def jsonEscape (s : String) : String :=
  String.join (s.toList.map (fun c =>
    if c = '\\' then "\\\\"
    else if c = '\x22' then "\\\x22"
    else if c = '\n' then "\\n"
    else String.mk [c]))

/-- One serialized record of `export_quotes_json`. -/
def renderJsonRow (q : QRow) : String :=
  "  \x7b\n    \x22id\x22: " ++ toString q.id ++ ",\n    \x22quote\x22: \x22" ++
    jsonEscape q.quote ++ "\x22,\n    \x22source\x22: \x22" ++ jsonEscape q.source ++
    "\x22\n  \x7d"

/-- `export_quotes_json`: models `json.dump(json_data, indent=2,
ensure_ascii=False)` followed by the trailing newline write. -/
def renderJson (quotes : List QRow) : String :=
  match quotes with
  | [] => "[]\n"
  | q :: rest =>
    "[\n" ++ renderJsonRow q ++
      String.join (rest.map (fun r => ",\n" ++ renderJsonRow r)) ++ "\n]\n"

/-- Models the quoting rule of `csv.DictWriter`: a field is quoted when it
contains a delimiter, a quote character or a line break. -/
def csvField (s : String) : String :=
  if s.toList.any (fun c => c = ',' ∨ c = '\x22' ∨ c = '\n' ∨ c = '\r') then
    "\x22" ++ String.join (s.toList.map (fun c =>
      if c = '\x22' then "\x22\x22" else String.mk [c])) ++ "\x22"
  else s

/-- `export_quotes_csv`: header row then one row per record. -/
def renderCsv (quotes : List QRow) : String :=
  "id,quote,source\r\n" ++
    String.join (quotes.map (fun q =>
      csvField (toString q.id) ++ "," ++ csvField q.quote ++ "," ++
        csvField q.source ++ "\r\n"))

/-- `export_quotes(quotes, format_type, output_path)` from
`src/quotes/generator.py` (lines 249-286) acting on the sink model: an
empty record list returns before any file is opened; otherwise the
destination file is opened with mode `"w"` (create/truncate) and the
rendering for the chosen format is written, or appended to the console
when no path is given.  An unknown format only logs, so nothing is
written to the already-opened file. -/
def export_quotes (quotes : List QRow) (format_type : String)
    (output_path : Option String) (sink : Sink) : Sink :=
  if quotes.isEmpty then sink
  else
    let content :=
      if format_type = "text" then renderText quotes
      else if format_type = "json" then renderJson quotes
      else if format_type = "csv" then renderCsv quotes
      else ""
    match output_path with
    | some p => { sink with files := setFile sink.files p content }
    | none => { sink with console := sink.console ++ content }

/-! ## Sampler (`src/quotes/generator.py`)

Python's `random` module is external to the repository; it is modelled as
a deterministic pseudo-random stream (a 64-bit linear congruential
generator).  The proofs below depend only on the documented contract of
`random.seed` / `random.sample` / `random.choices`: seeding puts the
generator into a state that is a function of the seed alone, `sample`
draws without replacement, `choices` draws with replacement. -/

structure RandGen where
  state : Nat
  deriving DecidableEq, Repr

/-- One generator step: the next 64-bit state together with a draw below
the given bound. -/
def RandGen.next (g : RandGen) (bound : Nat) : Nat × RandGen :=
  let s := (6364136223846793005 * g.state + 1442695040888963407) % (2 ^ 64)
  (s % bound, ⟨s⟩)

/-- Models `random.seed(seed)`: the resulting state depends on the seed
alone, discarding whatever state the generator had before. -/
def seedGen (seed : Int) : RandGen :=
  ⟨(seed.emod (2 ^ 64)).toNat⟩

/-- The generator state `generate_quotes` actually samples with: the
seeded state when a seed is given, the ambient state otherwise. -/
def effectiveGen (g₀ : RandGen) (seed : Option Int) : RandGen :=
  match seed with
  | some s => seedGen s
  | none => g₀

/-- Models `random.sample(pop, k)`: `k` draws without replacement, each
drawn element being removed from the remaining population. -/
def randomSample : RandGen → List Int → Nat → List Int × RandGen
  | g, _, 0 => ([], g)
  | g, pop, k + 1 =>
    if pop.isEmpty then ([], g)
    else
      let i := (g.next pop.length).1
      let g' := (g.next pop.length).2
      let res := randomSample g' (pop.eraseIdx i) k
      (pop.getD i 0 :: res.1, res.2)

/-- Models `random.choices(pop, k=count)`: `k` independent draws with
replacement. -/
def randomChoices : RandGen → List Int → Nat → List Int × RandGen
  | g, _, 0 => ([], g)
  | g, pop, k + 1 =>
    let i := (g.next pop.length).1
    let g' := (g.next pop.length).2
    let res := randomChoices g' pop k
    (pop.getD i 0 :: res.1, res.2)

/-- `get_all_quote_ids`: `SELECT id FROM quotes`, in table order. -/
def get_all_quote_ids (rows : List QRow) : List Int :=
  rows.map (fun r => r.id)

/-- `get_quote_by_id` from `src/quotes/generator.py` (lines 98-126):
`SELECT id, quote, source FROM quotes WHERE id = ?` with `fetchone()` —
the first stored row with this id, if any. -/
def get_quote_by_id (rows : List QRow) (quote_id : Int) : Option QRow :=
  rows.find? (fun r => r.id = quote_id)

/-- The sampling step of `generate_quotes` (lines 162-168): the
replacement policy switches on `count > len(all_ids)`, and the requested
count is passed through unreduced in both branches. -/
def drawIds (g : RandGen) (all_ids : List Int) (count : Nat) : List Int :=
  if count > all_ids.length then (randomChoices g all_ids count).1
  else (randomSample g all_ids count).1

/-- The ordered id sequence drawn by one call of `generate_quotes`
(the local variable `selected_ids`). -/
def selected_ids (g₀ : RandGen) (rows : List QRow) (count : Nat)
    (seed : Option Int) : List Int :=
  drawIds (effectiveGen g₀ seed) (get_all_quote_ids rows) count

/-- `generate_quotes(db_path, count, seed)` from `src/quotes/generator.py`
(lines 129-178): seed the generator when a seed is given, return `[]` on
an empty table, otherwise draw ids and resolve each one through
`get_quote_by_id`, skipping ids that resolve to nothing.  (The local
`actual_count = min(count, len(all_ids))` of the source only feeds a log
message and never the sampling.) -/
def generate_quotes (g₀ : RandGen) (rows : List QRow) (count : Nat)
    (seed : Option Int) : List QRow :=
  let all_ids := get_all_quote_ids rows
  if all_ids.isEmpty then []
  else (selected_ids g₀ rows count seed).filterMap (get_quote_by_id rows)

/-! ## Schema creation and migration (`src/scraper/scraper.py`, `create_database`)

The schema state of one storage location: whether the `quotes` table
exists and in which physical shape (`current` = columns id, quote,
source; `legacy` additionally carries the `created_at` timestamp
column), whether the scratch table `quotes_new` exists, whether the
`idx_quote` index exists, and the (quote, source) rows the `quotes`
table holds.  A DDL statement SQLite would reject (`CREATE TABLE` for an
existing table) is modelled as an error, so idempotence is a real
statement. -/

inductive TableShape where
  | absent
  | current
  | legacy
  deriving DecidableEq, Repr

structure SchemaDB where
  shape : TableShape
  hasNewTable : Bool
  hasIndex : Bool
  rows : List (String × String)
  deriving DecidableEq, Repr

/-- `create_database(db_path)` from `src/scraper/scraper.py` (lines
222-286), the variant the scraper and its tests import.  Following the
source branches: when the `quotes` table exists and `PRAGMA table_info`
lists a `created_at` column, migrate — `CREATE TABLE quotes_new` (an
error if that table already exists), copy the (quote, source) rows, drop
`quotes`, rename `quotes_new` to `quotes`, `CREATE INDEX IF NOT EXISTS
idx_quote`; when the table exists in the current shape, do nothing; when
it is absent, `CREATE TABLE quotes` and `CREATE INDEX IF NOT EXISTS
idx_quote` on a fresh (empty) table. -/
def create_database (s : SchemaDB) : Except String SchemaDB :=
  match s.shape with
  | .legacy =>
    if s.hasNewTable then .error "table quotes_new already exists"
    else .ok { shape := .current, hasNewTable := false, hasIndex := true, rows := s.rows }
  | .current => .ok s
  | .absent =>
    .ok { shape := .current, hasNewTable := s.hasNewTable, hasIndex := true, rows := [] }

/-! ## Parsed HTML model (`src/scraper/parser.py`)

BeautifulSoup is the external parser: a parsed document is a list of
top-level nodes, each either an element (tag name, raw `class` attribute
string, children) or a text fragment.  `get_text(strip=True)` and the
tag/CSS selections used by the profiles are defined over this tree; the
extraction profiles themselves are translated from the source. -/

mutual
inductive Node where
  | elem (tag : String) (cls : String) (children : Forest)
  | text (s : String)
inductive Forest where
  | nil
  | cons (n : Node) (rest : Forest)
end

mutual
/-- The descendant text fragments of a node, in document order. -/
def nodeTexts : Node → List String
  | .text s => [s]
  | .elem _ _ cs => forestTexts cs
/-- The descendant text fragments of a forest, in document order. -/
def forestTexts : Forest → List String
  | .nil => []
  | .cons n rest => nodeTexts n ++ forestTexts rest
end

/-- `get_text(strip=True)`: each fragment is stripped and the results are
concatenated (stripped-empty fragments contribute nothing). -/
def getText (n : Node) : String :=
  String.join ((nodeTexts n).map pyStrip)

/-- The simple CSS selectors the profiles use: a tag name, an attribute
substring test `[class*string]`, or a tag with a class word (`div.c`). -/
inductive SimpleSel where
  | tagIs (t : String)
  | classContains (s : String)
  | tagWithClass (t c : String)
  deriving DecidableEq, Repr

/-- Whether the class attribute, split on spaces, lists this word. -/
def hasClassWord (cls w : String) : Bool :=
  (cls.splitOn " ").contains w

def matchesSimple : SimpleSel → String → String → Bool
  | .tagIs t, tag, _ => tag = t
  | .classContains s, _, cls => pyContains cls s
  | .tagWithClass t c, tag, cls => tag = t && hasClassWord cls c

/-- A selector: simple, or a descendant combinator `anc child`. -/
inductive Sel where
  | simple (s : SimpleSel)
  | inside (anc child : SimpleSel)
  deriving DecidableEq, Repr

mutual
/-- CSS selection in document order; `ancOk` records whether some proper
ancestor already matched the ancestor part of a descendant selector. -/
def selectNode (sel : Sel) (ancOk : Bool) : Node → List Node
  | .text _ => []
  | .elem tag cls cs =>
    let hit := match sel with
      | .simple p => matchesSimple p tag cls
      | .inside _ child => ancOk && matchesSimple child tag cls
    let ancOk' := match sel with
      | .simple _ => ancOk
      | .inside anc _ => ancOk || matchesSimple anc tag cls
    (if hit then [Node.elem tag cls cs] else []) ++ selectForest sel ancOk' cs
def selectForest (sel : Sel) (ancOk : Bool) : Forest → List Node
  | .nil => []
  | .cons n rest => selectNode sel ancOk n ++ selectForest sel ancOk rest
end

/-- `soup.find_all(tag)` / `soup.select(css)` on the whole document. -/
def selectDoc (sel : Sel) (doc : Forest) : List Node :=
  selectForest sel false doc

/-- `extract_quotes_from_html(content, source)` from
`src/scraper/parser.py` (lines 74-114), the generic fallback profile,
over the parsed document: pattern 1 collects every `<blockquote>` with
non-empty text; pattern 2 collects every element whose class attribute
contains "quote" with text longer than 10; pattern 3 (only when the
first two found nothing) collects `<p>` elements whose text contains
"chuck norris" case-insensitively and is longer than 20. -/
def extract_quotes_from_html (doc : Forest) (source : String) : List SRow :=
  let q1 := (selectDoc (.simple (.tagIs "blockquote")) doc).filterMap (fun e =>
    let t := getText e
    if t ≠ "" then some ⟨t, source⟩ else none)
  let q2 := (selectDoc (.simple (.classContains "quote")) doc).filterMap (fun e =>
    let t := getText e
    if t ≠ "" ∧ 10 < t.length then some ⟨t, source⟩ else none)
  let quotes := q1 ++ q2
  if quotes.isEmpty then
    (selectDoc (.simple (.tagIs "p")) doc).filterMap (fun e =>
      let t := getText e
      if pyContains (pyLower t) "chuck norris" = true ∧ 20 < t.length then
        some ⟨t, source⟩
      else none)
  else quotes

/-- The `seen` / `unique_quotes` deduplication loop at the end of
`extract_quotes_from_parade`: keep the first occurrence of each quote
text. -/
def dedupeLoop (seen : List String) : List SRow → List SRow
  | [] => []
  | q :: rest =>
    if seen.contains q.quote then dedupeLoop seen rest
    else q :: dedupeLoop (q.quote :: seen) rest

/-- `extract_quotes_from_parade(content, source)` from
`src/scraper/parser.py` (lines 117-162): five selectors tried in order,
each match filtered by non-empty text, length in (20, 500) and the
case-insensitive marker phrase, then deduplicated by exact text equality
keeping first occurrences. -/
def extract_quotes_from_parade (doc : Forest) (source : String) : List SRow :=
  let selectors : List Sel := [
    .inside (.tagWithClass "div" "article-body") (.tagIs "p"),
    .simple (.tagIs "p"),
    .simple (.tagIs "li"),
    .simple (.classContains "joke"),
    .simple (.classContains "fact")]
  let quotes := (selectors.map (fun sel =>
    (selectDoc sel doc).filterMap (fun e =>
      let t := getText e
      if t ≠ "" ∧ 20 < t.length ∧ t.length < 500 ∧
          pyContains (pyLower t) "chuck norris" = true then
        some ⟨t, source⟩
      else none))).flatten
  dedupeLoop [] quotes

/-- Models `re.sub(r"<[^>]+>", "", match)` over the character list: at a
`<`, a match needs at least one following non-`>` character and then a
`>`; matched spans are removed, everything else is copied. -/
def stripTagsGo : Nat → List Char → List Char
  | 0, l => l
  | _ + 1, [] => []
  | fuel + 1, c :: rest =>
    if c = '<' then
      let k := rest.findIdx (fun d => d = '>')
      if k < rest.length ∧ k ≠ 0 then stripTagsGo fuel (rest.drop (k + 1))
      else c :: stripTagsGo fuel rest
    else c :: stripTagsGo fuel rest

/-- Each scan step consumes at least one character, so a fuel equal to
the length of the text runs the scan to completion. -/
def stripTags (s : String) : String :=
  String.mk (stripTagsGo s.toList.length s.toList)

/-- Models `re.sub(r"^\d+\.\s*", "", text)`: when the text starts with
one or more digits followed by a dot, that prefix and the whitespace run
after it are removed; otherwise the text is unchanged. -/
def stripNumbering (s : String) : String :=
  let cs := s.toList
  let digits := cs.takeWhile (fun c => c.isDigit)
  if digits.isEmpty then s
  else
    match cs.drop digits.length with
    | '.' :: rest => String.mk (rest.dropWhile (fun c => c.isWhitespace))
    | _ => s

/-- `extract_quotes_from_thefactsite(content, source)` from
`src/scraper/parser.py` (lines 165-192).  The `<li[^>]*>(.*?)</li>`
regex is the external scan: `items` is the list of raw inner fragments
it finds, in order.  Each fragment has nested tags removed, is stripped,
has the leading `N. ` numbering removed, and is kept when non-empty,
longer than 20, shorter than 500 and containing the marker phrase. -/
def extract_quotes_from_thefactsite (items : List String) (source : String) : List SRow :=
  items.filterMap (fun m =>
    let text := stripNumbering (pyStrip (stripTags m))
    if text ≠ "" ∧ 20 < text.length ∧ text.length < 500 ∧
        pyContains (pyLower text) "chuck norris" = true then
      some ⟨text, source⟩
    else none)

/-! ## Parsed JSON model (`src/scraper/parser.py`, `extract_quotes_from_json`) -/

inductive Json where
  | str (s : String)
  | num (n : Int)
  | jbool (b : Bool)
  | null
  | arr (xs : List Json)
  | obj (fields : List (String × Json))

/-- Python dict key lookup (`"k" in d` / `d["k"]`); `json.loads` gives
each object unique keys, so first-match lookup is exact. -/
def jsonGet (fields : List (String × Json)) (key : String) : Option Json :=
  match fields with
  | [] => none
  | (k, v) :: rest => if k = key then some v else jsonGet rest key

/-- A record appended by the JSON extractor: the code stores the raw
field value it found (`item["value"]` / `item["joke"]` / the string
itself) together with the source. -/
structure JRec where
  quote : Json
  source : String

/-- The per-item body of the two `for item in ...` loops: a dict item
contributes its `value` field, else its `joke` field, else nothing; a
plain string contributes itself; every other item is skipped. -/
def extractItem (source : String) : Json → Option JRec
  | .obj fields =>
    match jsonGet fields "value" with
    | some v => some ⟨v, source⟩
    | none =>
      match jsonGet fields "joke" with
      | some v => some ⟨v, source⟩
      | none => none
  | .str s => some ⟨.str s, source⟩
  | _ => none

/-- The append loop shared by the `result` branch and the top-level list
branch. -/
def extractItems (source : String) : List Json → List JRec
  | [] => []
  | item :: rest =>
    match extractItem source item with
    | some r => r :: extractItems source rest
    | none => extractItems source rest

/-- `extract_quotes_from_json(content, source)` from
`src/scraper/parser.py` (lines 25-71; identical copy at
`src/scraper/scraper.py` lines 327-373), over parsed JSON: `json.loads`
is the external parser and `none` models a `JSONDecodeError`, which the
function logs and turns into `[]`. -/
def extract_quotes_from_json (content : Option Json) (source : String) : List JRec :=
  match content with
  | none => []
  | some (.obj fields) =>
    match jsonGet fields "value" with
    | some v => [⟨v, source⟩]
    | none =>
      match jsonGet fields "joke" with
      | some v => [⟨v, source⟩]
      | none =>
        match jsonGet fields "result" with
        | some (.arr items) => extractItems source items
        | _ => []
  | some (.arr items) => extractItems source items
  | some _ => []

/-! ## Theorems -/

theorem RandGen.next_fst_lt (g : RandGen) (bound : Nat) (h : 0 < bound) :
    (g.next bound).1 < bound := by
  simp only [RandGen.next]
  exact Nat.mod_lt _ h

theorem getElem_not_mem_eraseIdx (l : List Int) (i : Nat) (h : i < l.length)
    (hnd : l.Nodup) : l[i] ∉ l.eraseIdx i := by
  intro hx
  obtain ⟨j, hj, hne, he⟩ := List.mem_eraseIdx_iff_getElem.mp hx
  exact hne ((List.Nodup.getElem_inj_iff hnd).mp he)

theorem randomSample_length (k : Nat) : ∀ (g : RandGen) (pop : List Int),
    ((randomSample g pop k).1).length = min k pop.length := by
  induction k with
  | zero => intro g pop; simp [randomSample]
  | succ k ih =>
    intro g pop
    cases pop with
    | nil => simp [randomSample]
    | cons a as =>
      have hi := RandGen.next_fst_lt g (a :: as).length (by simp)
      simp only [randomSample, List.isEmpty_cons, Bool.false_eq_true, if_false,
        List.length_cons, ih]
      rw [List.length_eraseIdx, if_pos (by simpa using hi)]
      simp only [List.length_cons]
      omega

theorem randomSample_mem (k : Nat) : ∀ (g : RandGen) (pop : List Int) (x : Int),
    x ∈ (randomSample g pop k).1 → x ∈ pop := by
  induction k with
  | zero => intro g pop x hx; simp [randomSample] at hx
  | succ k ih =>
    intro g pop x hx
    cases pop with
    | nil => simp [randomSample] at hx
    | cons a as =>
      have hi := RandGen.next_fst_lt g (a :: as).length (by simp)
      simp only [randomSample, List.isEmpty_cons, Bool.false_eq_true, if_false,
        List.mem_cons] at hx
      rcases hx with hx | hx
      · rw [hx, List.getD_eq_getElem _ _ hi]
        exact List.getElem_mem hi
      · exact (List.eraseIdx_sublist (a :: as) _).subset (ih _ _ _ hx)

theorem randomSample_nodup (k : Nat) : ∀ (g : RandGen) (pop : List Int),
    pop.Nodup → ((randomSample g pop k).1).Nodup := by
  induction k with
  | zero => intro g pop _; simp [randomSample]
  | succ k ih =>
    intro g pop hnd
    cases pop with
    | nil => simp [randomSample]
    | cons a as =>
      have hi := RandGen.next_fst_lt g (a :: as).length (by simp)
      simp only [randomSample, List.isEmpty_cons, Bool.false_eq_true, if_false]
      refine List.Nodup.cons ?_ (ih _ _ ((List.eraseIdx_sublist (a :: as) _).nodup hnd))
      intro hmem
      have hx := randomSample_mem k _ _ _ hmem
      rw [List.getD_eq_getElem _ _ hi] at hx
      exact getElem_not_mem_eraseIdx (a :: as) _ hi hnd hx

theorem randomChoices_length (k : Nat) : ∀ (g : RandGen) (pop : List Int),
    ((randomChoices g pop k).1).length = k := by
  induction k with
  | zero => intro g pop; simp [randomChoices]
  | succ k ih => intro g pop; simp [randomChoices, ih]

theorem randomChoices_mem (k : Nat) : ∀ (g : RandGen) (pop : List Int) (x : Int),
    pop ≠ [] → x ∈ (randomChoices g pop k).1 → x ∈ pop := by
  induction k with
  | zero => intro g pop x _ hx; simp [randomChoices] at hx
  | succ k ih =>
    intro g pop x hne hx
    have hlen : 0 < pop.length := List.length_pos.mpr hne
    have hi := RandGen.next_fst_lt g pop.length hlen
    simp only [randomChoices, List.mem_cons] at hx
    rcases hx with hx | hx
    · rw [hx, List.getD_eq_getElem _ _ hi]
      exact List.getElem_mem hi
    · exact ih _ _ _ hne hx

theorem drawIds_length (g : RandGen) (all_ids : List Int) (count : Nat) :
    (drawIds g all_ids count).length = count := by
  unfold drawIds
  by_cases h : count > all_ids.length
  · simp [h, randomChoices_length]
  · simp only [h, if_false]
    rw [randomSample_length]
    omega

theorem drawIds_mem (g : RandGen) (all_ids : List Int) (count : Nat) (x : Int)
    (hne : all_ids ≠ []) (hx : x ∈ drawIds g all_ids count) : x ∈ all_ids := by
  unfold drawIds at hx
  by_cases h : count > all_ids.length
  · rw [if_pos h] at hx
    exact randomChoices_mem count g all_ids x hne hx
  · rw [if_neg h] at hx
    exact randomSample_mem count g all_ids x hx

theorem drawIds_nodup (g : RandGen) (all_ids : List Int) (count : Nat)
    (hnd : all_ids.Nodup) (hle : count ≤ all_ids.length) :
    (drawIds g all_ids count).Nodup := by
  unfold drawIds
  rw [if_neg (by omega)]
  exact randomSample_nodup count g all_ids hnd

theorem length_filterMap_of_forall_isSome {α β : Type} (f : α → Option β)
    (l : List α) (h : ∀ x ∈ l, (f x).isSome) : (l.filterMap f).length = l.length := by
  induction l with
  | nil => simp
  | cons a as ih =>
    obtain ⟨b, hb⟩ := Option.isSome_iff_exists.mp (h a (by simp))
    rw [List.filterMap_cons, hb, List.length_cons, ih (fun x hx => h x (by simp [hx]))]
    simp

theorem saveLoop_shift (l : List SRow) (st : Store) (saved : Nat) :
    saveLoop st saved l = (saved + (saveLoop st 0 l).1, (saveLoop st 0 l).2) := by
  induction l generalizing st saved with
  | nil => simp [saveLoop]
  | cons r rest ih =>
    simp only [saveLoop]
    cases insertQuote st r with
    | some st' =>
      dsimp only
      rw [ih st' (saved + 1), ih st' (0 + 1)]
      simp [Nat.add_assoc]
    | none =>
      dsimp only
      exact ih st saved

theorem saveLoop_append (l₁ l₂ : List SRow) (st : Store) (saved : Nat) :
    saveLoop st saved (l₁ ++ l₂) =
      saveLoop (saveLoop st saved l₁).2 (saveLoop st saved l₁).1 l₂ := by
  induction l₁ generalizing st saved with
  | nil => simp [saveLoop]
  | cons r rest ih =>
    simp only [List.cons_append, saveLoop]
    cases insertQuote st r with
    | some st' =>
      dsimp only
      exact ih st' (saved + 1)
    | none =>
      dsimp only
      exact ih st saved

theorem save_eq_saveLoop (quotes : List SRow) (st : Store) :
    save_quotes_to_db quotes st = saveLoop st 0 quotes := by
  cases quotes with
  | nil => simp [save_quotes_to_db, saveLoop]
  | cons r rest => simp [save_quotes_to_db]

/-- C1: `save_quotes_to_db` inserts each record independently and returns
the number of newly inserted rows: saving a (quote, source) pair that is
not yet stored yields saved_count 1, saving the same pair again yields
saved_count 0 and the store afterwards holds exactly one row with that
quote text, and a uniqueness violation never aborts the rest of a batch
(saving a concatenated batch equals saving the two halves in sequence,
with the counts summed). -/
theorem save_quotes_to_db_spec (st : Store) (r : SRow) (l₁ l₂ : List SRow) (st' : Store)
    (hfresh : quoteExists st r.quote = false) :
    (save_quotes_to_db [r] st).1 = 1 ∧
    (save_quotes_to_db [r] (save_quotes_to_db [r] st).2).1 = 0 ∧
    countQuote (save_quotes_to_db [r] (save_quotes_to_db [r] st).2).2 r.quote = 1 ∧
    save_quotes_to_db (l₁ ++ l₂) st' =
      ((save_quotes_to_db l₁ st').1 +
         (save_quotes_to_db l₂ (save_quotes_to_db l₁ st').2).1,
       (save_quotes_to_db l₂ (save_quotes_to_db l₁ st').2).2) := by
  have hins : insertQuote st r = some ⟨st.rows ++ [r]⟩ := by
    simp [insertQuote, hfresh]
  have hst1 : (save_quotes_to_db [r] st).2 = ⟨st.rows ++ [r]⟩ := by
    simp [save_eq_saveLoop, saveLoop, hins]
  have hdup : quoteExists ⟨st.rows ++ [r]⟩ r.quote = true := by
    simp [quoteExists]
  have hnodup : ∀ x ∈ st.rows, ¬(x.quote = r.quote) := by
    simpa [quoteExists] using hfresh
  refine ⟨?_, ?_, ?_, ?_⟩
  · simp [save_eq_saveLoop, saveLoop, hins]
  · rw [hst1]
    simp [save_eq_saveLoop, saveLoop, insertQuote, hdup]
  · rw [hst1]
    have h2 : (save_quotes_to_db [r] (⟨st.rows ++ [r]⟩ : Store)).2 = ⟨st.rows ++ [r]⟩ := by
      simp [save_eq_saveLoop, saveLoop, insertQuote, hdup]
    rw [h2]
    have hfil : st.rows.filter (fun x => x.quote = r.quote) = [] := by
      rw [List.filter_eq_nil_iff]
      intro a ha
      simpa using hnodup a ha
    simp [countQuote, hfil]
  · simp only [save_eq_saveLoop]
    rw [saveLoop_append, saveLoop_shift]

theorem save_quotes_to_db_spec_witness :
    quoteExists ⟨[]⟩ "Chuck Norris counted to infinity. Twice." = false ∧
    (save_quotes_to_db [⟨"Chuck Norris counted to infinity. Twice.", "src"⟩] ⟨[]⟩).1 = 1 :=
  ⟨by decide,
   (save_quotes_to_db_spec ⟨[]⟩ ⟨"Chuck Norris counted to infinity. Twice.", "src"⟩
      [] [] ⟨[]⟩ (by decide)).1⟩

/-- C9: `comment_out_source` rewrites the source-list file so that every
line whose stripped content equals the URL becomes `# [<reason>] <url>`,
every other line is preserved character for character, and the number of
lines is unchanged. -/
theorem comment_out_source_spec (url reason : String) (lines : List String) :
    (comment_out_source url reason lines).length = lines.length ∧
    ∀ i, i < lines.length →
      (comment_out_source url reason lines).getD i "" =
        (if pyStrip (lines.getD i "") = url then commentedLine reason url
         else lines.getD i "") := by
  induction lines with
  | nil => simp [comment_out_source]
  | cons l ls ih =>
    refine ⟨by simp [comment_out_source, ih.1], ?_⟩
    intro i hi
    cases i with
    | zero => simp [comment_out_source]
    | succ j =>
      have hj : j < ls.length := by simpa using hi
      simpa [comment_out_source] using ih.2 j hj

theorem comment_out_source_spec_witness :
    (0 : Nat) < (["https://x.test/a\n", "https://x.test/b\n"] : List String).length ∧
    (comment_out_source "https://x.test/a" "HTTP 404"
        ["https://x.test/a\n", "https://x.test/b\n"]).getD 0 "" =
      "# [HTTP 404] https://x.test/a\n" := by
  refine ⟨by decide, ?_⟩
  have h := (comment_out_source_spec "https://x.test/a" "HTTP 404"
      ["https://x.test/a\n", "https://x.test/b\n"]).2 0 (by decide)
  rw [h]
  decide

/-- C8: exporting an empty record list performs no writes at all: the
file system is untouched (no destination file created, none truncated or
modified) and nothing is written to the console sink, for every format
and every output path. -/
theorem export_quotes_empty_noop (format_type : String) (output_path : Option String)
    (sink : Sink) :
    export_quotes [] format_type output_path sink = sink ∧
    (export_quotes [] format_type output_path sink).files = sink.files ∧
    (export_quotes [] format_type output_path sink).console = sink.console := by
  simp [export_quotes]

/-- C2: for a non-empty identifier population and a requested count of at
least 1, `generate_quotes` draws without replacement when the count is at
most the population size (the drawn id sequence has no duplicates) and
with replacement when the count exceeds it (the sequence has length
exactly `count`); the requested count itself is never reduced — the drawn
sequence always has length `count`, only the replacement policy switches
on the comparison. -/
theorem generate_quotes_replacement_policy (g₀ : RandGen) (rows : List QRow)
    (count : Nat) (seed : Option Int) (_hne : rows ≠ []) (_hc : 1 ≤ count)
    (hnd : (get_all_quote_ids rows).Nodup) :
    (count ≤ (get_all_quote_ids rows).length →
      (selected_ids g₀ rows count seed).Nodup) ∧
    ((get_all_quote_ids rows).length < count →
      (selected_ids g₀ rows count seed).length = count) ∧
    (selected_ids g₀ rows count seed).length = count := by
  refine ⟨?_, ?_, drawIds_length _ _ _⟩
  · intro hle
    exact drawIds_nodup _ _ _ hnd hle
  · intro _
    exact drawIds_length _ _ _

theorem generate_quotes_replacement_policy_witness :
    ([⟨1, "a", "s"⟩, ⟨2, "b", "s"⟩] : List QRow) ≠ [] ∧ 1 ≤ 2 ∧
    (get_all_quote_ids [⟨1, "a", "s"⟩, ⟨2, "b", "s"⟩]).Nodup ∧
    (selected_ids ⟨0⟩ [⟨1, "a", "s"⟩, ⟨2, "b", "s"⟩] 2 (some 42)).Nodup := by
  refine ⟨by decide, by decide, by decide, ?_⟩
  exact (generate_quotes_replacement_policy ⟨0⟩ [⟨1, "a", "s"⟩, ⟨2, "b", "s"⟩] 2
    (some 42) (by decide) (by decide) (by decide)).1 (by decide)

/-- C3: with the same seed, the same count and the same unchanged
population, two calls of `generate_quotes` draw the same ordered id
sequence and return the same records, whatever generator state each call
starts from: seeding makes the sampling a deterministic function of seed,
count and population. -/
theorem generate_quotes_seed_deterministic (g₀ g₁ : RandGen) (rows : List QRow)
    (count : Nat) (s : Int) :
    selected_ids g₀ rows count (some s) = selected_ids g₁ rows count (some s) ∧
    generate_quotes g₀ rows count (some s) = generate_quotes g₁ rows count (some s) :=
  ⟨rfl, rfl⟩

/-- C10: on a non-empty table (where, sequentially, every stored id
resolves to its row) and a count of at least 1, `generate_quotes` returns
exactly `count` records, and every returned record is a stored row whose
id was drawn — its id, quote and source fields are those of the stored
row. -/
theorem generate_quotes_count_and_membership (g₀ : RandGen) (rows : List QRow)
    (count : Nat) (seed : Option Int) (hne : rows ≠ []) (_hc : 1 ≤ count) :
    (generate_quotes g₀ rows count seed).length = count ∧
    ∀ q ∈ generate_quotes g₀ rows count seed,
      q ∈ rows ∧ q.id ∈ selected_ids g₀ rows count seed := by
  have hids : (get_all_quote_ids rows).isEmpty = false := by
    cases rows with
    | nil => exact absurd rfl hne
    | cons r rs => simp [get_all_quote_ids]
  have hidne : get_all_quote_ids rows ≠ [] := by
    intro h
    rw [h] at hids
    simp at hids
  have hsome : ∀ x ∈ selected_ids g₀ rows count seed,
      (get_quote_by_id rows x).isSome := by
    intro x hx
    have hmem : x ∈ get_all_quote_ids rows := drawIds_mem _ _ _ _ hidne hx
    obtain ⟨r, hr, hrid⟩ := List.mem_map.mp hmem
    rw [get_quote_by_id, List.find?_isSome]
    exact ⟨r, hr, by simp [hrid]⟩
  constructor
  · simp only [generate_quotes, hids, Bool.false_eq_true, if_false]
    rw [length_filterMap_of_forall_isSome _ _ hsome]
    exact drawIds_length _ _ _
  · intro q hq
    simp only [generate_quotes, hids, Bool.false_eq_true, if_false] at hq
    obtain ⟨x, hxsel, hxq⟩ := List.mem_filterMap.mp hq
    have hqrows : q ∈ rows := List.mem_of_find?_eq_some hxq
    have hqid : q.id = x := by
      have := List.find?_some hxq
      simpa using this
    exact ⟨hqrows, by rw [hqid]; exact hxsel⟩

theorem generate_quotes_count_and_membership_witness :
    ([⟨1, "a", "s"⟩] : List QRow) ≠ [] ∧ 1 ≤ 3 ∧
    (generate_quotes ⟨0⟩ [⟨1, "a", "s"⟩] 3 (some 7)).length = 3 :=
  ⟨by decide, by decide,
   (generate_quotes_count_and_membership ⟨0⟩ [⟨1, "a", "s"⟩] 3 (some 7)
      (by decide) (by decide)).1⟩

/-- C4: `create_database` is safe to call on every run: on a fresh
location it creates the quotes table in the current shape (columns id,
quote, source) together with the quote index; on a location whose quotes
table carries the legacy `created_at` column it migrates once,
preserving the (quote, source) rows; on a current-shape table it changes
nothing; and a second call never errors and never changes or duplicates
the schema objects. -/
theorem create_database_spec (s : SchemaDB) (hnew : s.hasNewTable = false) :
    ∃ s', create_database s = .ok s' ∧
      s'.shape = .current ∧
      (s.shape = .absent → s'.hasIndex = true ∧ s'.rows = []) ∧
      (s.shape = .legacy → s'.hasIndex = true ∧ s'.rows = s.rows) ∧
      (s.shape = .current → s' = s) ∧
      create_database s' = .ok s' := by
  obtain ⟨shape, hNew, hIdx, rows⟩ := s
  simp only at hnew
  subst hnew
  cases shape with
  | absent =>
    refine ⟨⟨.current, false, true, []⟩, rfl, rfl, fun _ => ⟨rfl, rfl⟩, ?_, ?_, rfl⟩
    · intro h; exact TableShape.noConfusion h
    · intro h; exact TableShape.noConfusion h
  | current =>
    refine ⟨⟨.current, false, hIdx, rows⟩, rfl, rfl, ?_, ?_, fun _ => rfl, rfl⟩
    · intro h; exact TableShape.noConfusion h
    · intro h; exact TableShape.noConfusion h
  | legacy =>
    refine ⟨⟨.current, false, true, rows⟩, rfl, rfl, ?_, fun _ => ⟨rfl, rfl⟩, ?_, rfl⟩
    · intro h; exact TableShape.noConfusion h
    · intro h; exact TableShape.noConfusion h

theorem create_database_spec_witness :
    (⟨.legacy, false, false, [("q", "s")]⟩ : SchemaDB).hasNewTable = false ∧
    ∃ s', create_database ⟨.legacy, false, false, [("q", "s")]⟩ = .ok s' ∧
      s'.shape = .current ∧ s'.rows = [("q", "s")] := by
  refine ⟨rfl, ?_⟩
  obtain ⟨s', hok, hshape, -, hleg, -, -⟩ :=
    create_database_spec ⟨.legacy, false, false, [("q", "s")]⟩ rfl
  exact ⟨s', hok, hshape, (hleg rfl).2⟩

/-- C5 fails on the code: the generic fallback profile
`extract_quotes_from_html` does not deduplicate.  On the parse tree of
`<blockquote class="quote">Chuck Norris writes code</blockquote>`,
pattern 1 (blockquote tags) and pattern 2 (class attribute containing
"quote") both collect the same text, which therefore appears twice. -/
theorem extract_quotes_from_html_dup_counterexample :
    extract_quotes_from_html
        (.cons (.elem "blockquote" "quote" (.cons (.text "Chuck Norris writes code") .nil)) .nil)
        "src" =
      [⟨"Chuck Norris writes code", "src"⟩, ⟨"Chuck Norris writes code", "src"⟩] ∧
    ¬ ((extract_quotes_from_html
        (.cons (.elem "blockquote" "quote" (.cons (.text "Chuck Norris writes code") .nil)) .nil)
        "src").map (fun r => r.quote)).Nodup :=
  ⟨by decide, by decide⟩

theorem dedupeLoop_nodup_aux (l : List SRow) : ∀ seen : List String,
    ((dedupeLoop seen l).map (fun r => r.quote)).Nodup ∧
    ∀ r ∈ dedupeLoop seen l, r.quote ∉ seen := by
  induction l with
  | nil => intro seen; simp [dedupeLoop]
  | cons q rest ih =>
    intro seen
    by_cases h : seen.contains q.quote = true
    · simp only [dedupeLoop, h, if_true]
      exact ih seen
    · have h' : seen.contains q.quote = false := by
        cases hb : seen.contains q.quote with
        | true => exact absurd hb h
        | false => rfl
      have hnotin : q.quote ∉ seen := by simpa using h'
      simp only [dedupeLoop, h', Bool.false_eq_true, if_false]
      constructor
      · simp only [List.map_cons, List.nodup_cons]
        refine ⟨?_, (ih (q.quote :: seen)).1⟩
        intro hmem
        obtain ⟨r, hr, hrq⟩ := List.mem_map.mp hmem
        exact (ih (q.quote :: seen)).2 r hr (by rw [hrq]; exact List.mem_cons_self _ _)
      · intro r hr
        rcases List.mem_cons.mp hr with rfl | hr'
        · exact hnotin
        · exact fun hmem =>
            (ih (q.quote :: seen)).2 r hr' (List.mem_cons_of_mem _ hmem)

/-- C5 (amended): the deduplication by exact quote-text equality in
first-occurrence order lives in the Parade site-specific profile, not in
the generic fallback: `extract_quotes_from_parade` never returns two
entries with equal quote text (while `extract_quotes_from_html` can, see
the counterexample). -/
theorem extract_quotes_from_parade_nodup (doc : Forest) (source : String) :
    ((extract_quotes_from_parade doc source).map (fun r => r.quote)).Nodup :=
  (dedupeLoop_nodup_aux _ []).1

/-- C6 fails on the code in two ways: the Thefactsite profile strips only
the `N. ` numbering form, so a list item starting with `1) ` keeps that
prefix in the output; and the generic fallback profile applies no
(20, 500) length filter and no marker-phrase filter at all — a
blockquote with a 10-character text that never mentions the marker is
returned as a quote. -/
theorem html_profile_filter_counterexample :
    extract_quotes_from_thefactsite ["1) Chuck Norris can divide by zero."] "src" =
      [⟨"1) Chuck Norris can divide by zero.", "src"⟩] ∧
    ("1) Chuck Norris can divide by zero.").toList.take 3 = ['1', ')', ' '] ∧
    extract_quotes_from_html
        (.cons (.elem "blockquote" "" (.cons (.text "Short text") .nil)) .nil) "src" =
      [⟨"Short text", "src"⟩] ∧
    ¬ 20 < ("Short text" : String).length :=
  ⟨by decide, by decide, by decide, by decide⟩

/-- C6 (amended): every quote text returned by the Thefactsite profile
has length strictly between 20 and 500 and contains the marker phrase
"chuck norris" case-insensitively, and it is the list-item fragment with
nested tags removed, stripped, and the leading digits-then-dot `N. `
numbering removed before the filter is applied — in particular the
spec's `"1. Chuck Norris ..."` list item yields output text without the
leading `"1. "`.  (The `N) ` form is not stripped, and the generic
fallback profile applies none of these filters; see the
counterexample.) -/
theorem extract_quotes_from_thefactsite_spec :
    (∀ (items : List String) (source : String) (r : SRow),
      r ∈ extract_quotes_from_thefactsite items source →
      20 < r.quote.length ∧ r.quote.length < 500 ∧
      pyContains (pyLower r.quote) "chuck norris" = true ∧
      ∃ m ∈ items, r.quote = stripNumbering (pyStrip (stripTags m))) ∧
    extract_quotes_from_thefactsite
        ["1. Chuck Norris counted to infinity. Twice."] "src" =
      [⟨"Chuck Norris counted to infinity. Twice.", "src"⟩] := by
  constructor
  · intro items source r hr
    simp only [extract_quotes_from_thefactsite] at hr
    obtain ⟨m, hm, hf⟩ := List.mem_filterMap.mp hr
    split at hf
    case isTrue hcond =>
      obtain ⟨-, h20, h500, hmark⟩ := hcond
      cases hf
      exact ⟨h20, h500, hmark, m, hm, rfl⟩
    case isFalse hcond => exact absurd hf (by simp)
  · decide

theorem extract_quotes_from_thefactsite_spec_witness :
    (⟨"Chuck Norris counted to infinity. Twice.", "src"⟩ : SRow) ∈
      extract_quotes_from_thefactsite
        ["1. Chuck Norris counted to infinity. Twice."] "src" ∧
    20 < ("Chuck Norris counted to infinity. Twice." : String).length := by
  have h := extract_quotes_from_thefactsite_spec.1
    ["1. Chuck Norris counted to infinity. Twice."] "src"
    ⟨"Chuck Norris counted to infinity. Twice.", "src"⟩ (by decide)
  exact ⟨by decide, h.1⟩

theorem extractItems_eq_filterMap (source : String) (items : List Json) :
    extractItems source items = items.filterMap (extractItem source) := by
  induction items with
  | nil => simp [extractItems]
  | cons item rest ih =>
    simp only [extractItems, List.filterMap_cons]
    cases extractItem source item with
    | some r => dsimp only; rw [ih]
    | none => dsimp only; rw [ih]

/-- C7: the JSON extractor maps `{"value": "X"}` to exactly one record
`{quote: "X", source: S}`; maps a top-level list to one record per
element that is a plain string or an object with a recognized field
(`value` preferred over `joke`), preserving input order (the loop is the
filterMap of the per-item rule); silently skips every entry lacking a
recognized field; and the A/skip/B example yields exactly the records
for "A" and "B". -/
theorem extract_quotes_from_json_spec (S : String) :
    extract_quotes_from_json (some (.obj [("value", .str "X")])) S = [⟨.str "X", S⟩] ∧
    (∀ items : List Json, extract_quotes_from_json (some (.arr items)) S =
      items.filterMap (extractItem S)) ∧
    (∀ fields : List (String × Json),
      jsonGet fields "value" = none → jsonGet fields "joke" = none →
      extractItem S (.obj fields) = none) ∧
    extract_quotes_from_json
        (some (.arr [.obj [("value", .str "A")], .obj [("other", .str "skip")],
          .obj [("value", .str "B")]])) S =
      [⟨.str "A", S⟩, ⟨.str "B", S⟩] := by
  refine ⟨rfl, ?_, ?_, ?_⟩
  · intro items
    exact extractItems_eq_filterMap S items
  · intro fields h1 h2
    simp [extractItem, h1, h2]
  · rfl

theorem extract_quotes_from_json_spec_witness :
    extract_quotes_from_json (some (.obj [("value", .str "X")])) "S" =
      [⟨.str "X", "S"⟩] :=
  (extract_quotes_from_json_spec "S").1
